import Mathlib

/-!
Verification of the MistralAI text vectorizer
(redisvl/utils/vectorize/text/mistral.py).

The Python class `MistralAITextVectorizer` is shallowly embedded below:
Python values that flow into runtime type checks are modelled by `PyVal`,
exceptions by `Err`, the remote Mistral client by a function from requests
to `Except Err` responses, and each method by a pure Lean function that
also returns the list of remote requests it issued (tagged with the call
site that issued them).  The `tenacity` retry decorator applied to the four
public embedding operations is modelled by an explicit retry policy record
plus an executable retry loop.

Two helpers of the parent class `BaseVectorizer`
(redisvl/utils/vectorize/base.py) are used but not defined in the file
under verification: `batchify` and `_process_embedding`.  They are modelled
from the specification and marked as such in their doc comments.
-/

namespace Mistral

/-- Python runtime values, as far as the vectorizer's `isinstance` checks
and request payloads need them. -/
inductive PyVal where
  | str (s : String)
  | int (n : Int)
  | list (xs : List PyVal)
  | noneV
deriving Repr

/-- Exception kinds raised by the embedded code: `TypeError` from input
validation, `ValueError` from construction/probing, `KeyError`/`IndexError`
from response access, and any other provider-side failure. -/
inductive Err where
  | typeError (msg : String)
  | valueError (msg : String)
  | keyError (msg : String)
  | indexError (msg : String)
  | providerError (msg : String)
deriving DecidableEq, Repr

/-- The message carried by an exception (Python `str(e)`). -/
def errStr : Err → String
  | .typeError m => m
  | .valueError m => m
  | .keyError m => m
  | .indexError m => m
  | .providerError m => m

/-- Whether an exception is a `TypeError` (the kind excluded from retry by
`retry_if_not_exception_type(TypeError)`). -/
def isTypeError : Err → Bool
  | .typeError _ => true
  | _ => false

/-- Whether an exception is a `KeyError` or `IndexError` (the kinds caught
by the first `except` clause of `_set_model_dims`). -/
def isKeyOrIndexError : Err → Bool
  | .keyError _ => true
  | .indexError _ => true
  | _ => false

/-- `isinstance(x, str)`. -/
def pyIsStr : PyVal → Bool
  | .str _ => true
  | _ => false

/-- Applies the optional `preprocess` callable, as in
`if preprocess: text = preprocess(text)`. -/
def applyPre (pre : Option (α → α)) (x : α) : α :=
  match pre with
  | some p => p x
  | none => x

/-- Fuel-driven worker for `batchify`: consumes the input in consecutive
groups of `batchSize` items.  The fuel is the length of the original list,
which always suffices because every step removes at least one element; the
fuel-exhausted branch is unreachable under `xs.length ≤ fuel`. -/
def batchifyGo (f : α → α) (batchSize : Nat) : Nat → List α → List (List α)
  | _, [] => []
  | 0, _ :: _ => []
  | fuel + 1, x :: rest =>
      ((x :: rest).take batchSize).map f ::
        batchifyGo f batchSize fuel (rest.drop (batchSize - 1))

/-- Modelled from the spec: `batchify` is defined on `BaseVectorizer`
(redisvl/utils/vectorize/base.py), which is not part of the source under
verification.  Per spec section 4.1 it splits the input into consecutive
batches of at most `batchSize` items, in input order, applying the optional
`preprocess` transform to each item before it is placed in a batch. -/
def batchify (pre : Option (α → α)) (batchSize : Nat) (xs : List α) :
    List (List α) :=
  batchifyGo (applyPre pre) batchSize xs.length xs

theorem batchifyGo_nil (f : α → α) (B fuel : Nat) :
    batchifyGo f B fuel [] = [] := by
  cases fuel <;> rfl

theorem batchifyGo_cons (f : α → α) (B fuel : Nat) (x : α) (rest : List α) :
    batchifyGo f B (fuel + 1) (x :: rest) =
      ((x :: rest).take B).map f ::
        batchifyGo f B fuel (rest.drop (B - 1)) := rfl

theorem batchifyGo_fuel_irrel (f : α → α) (B : Nat) :
    ∀ fuel fuel' xs, xs.length ≤ fuel → xs.length ≤ fuel' →
      batchifyGo f B fuel (xs : List α) = batchifyGo f B fuel' xs := by
  intro fuel
  induction fuel with
  | zero =>
      intro fuel' xs hx _
      have hnil : xs = [] := List.length_eq_zero.mp (Nat.le_zero.mp hx)
      subst hnil
      simp [batchifyGo_nil]
  | succ n ih =>
      intro fuel' xs hx hx'
      cases xs with
      | nil => simp [batchifyGo_nil]
      | cons x rest =>
          cases fuel' with
          | zero =>
              exact absurd hx' (by simp)
          | succ m =>
              rw [batchifyGo_cons, batchifyGo_cons]
              have hdrop : (rest.drop (B - 1)).length ≤ rest.length := by
                simp [List.length_drop]
              have hr : rest.length ≤ n := by simp at hx; omega
              have hr' : rest.length ≤ m := by simp at hx'; omega
              rw [ih m (rest.drop (B - 1)) (Nat.le_trans hdrop hr)
                (Nat.le_trans hdrop hr')]

theorem batchify_nil (pre : Option (α → α)) (B : Nat) :
    batchify pre B ([] : List α) = [] := rfl

theorem batchify_cons (pre : Option (α → α)) (B : Nat) (hB : 1 ≤ B)
    (x : α) (rest : List α) :
    batchify pre B (x :: rest) =
      ((x :: rest).take B).map (applyPre pre) ::
        batchify pre B ((x :: rest).drop B) := by
  have hdropeq : (x :: rest).drop B = rest.drop (B - 1) := by
    cases B with
    | zero => exact absurd hB (by simp)
    | succ k => simp [List.drop_succ_cons]
  unfold batchify
  rw [List.length_cons, batchifyGo_cons, hdropeq]
  congr 1
  exact batchifyGo_fuel_irrel (applyPre pre) B rest.length
    (rest.drop (B - 1)).length (rest.drop (B - 1)) (by simp [List.length_drop])
    (Nat.le_refl _)

theorem batchifyGo_join (f : α → α) (B : Nat) (hB : 1 ≤ B) :
    ∀ fuel (xs : List α), xs.length ≤ fuel →
      (batchifyGo f B fuel xs).flatten = xs.map f := by
  intro fuel
  induction fuel with
  | zero =>
      intro xs hx
      have hnil : xs = [] := List.length_eq_zero.mp (Nat.le_zero.mp hx)
      subst hnil
      simp [batchifyGo_nil]
  | succ n ih =>
      intro xs hx
      cases xs with
      | nil => simp [batchifyGo_nil]
      | cons x rest =>
          have hdropeq : rest.drop (B - 1) = (x :: rest).drop B := by
            cases B with
            | zero => exact absurd hB (by simp)
            | succ k => simp [List.drop_succ_cons]
          have hlen : (rest.drop (B - 1)).length ≤ n := by
            have := List.length_drop (B - 1) rest
            simp at hx
            omega
          rw [batchifyGo_cons, List.flatten_cons, ih (rest.drop (B - 1)) hlen,
            hdropeq, ← List.map_append, List.take_append_drop]

theorem batchifyGo_length (f : α → α) (B : Nat) (hB : 1 ≤ B) :
    ∀ fuel (xs : List α), xs.length ≤ fuel →
      (batchifyGo f B fuel xs).length = (xs.length + B - 1) / B := by
  intro fuel
  induction fuel with
  | zero =>
      intro xs hx
      have hnil : xs = [] := List.length_eq_zero.mp (Nat.le_zero.mp hx)
      subst hnil
      simp [batchifyGo_nil]
      exact (Nat.div_eq_of_lt (by omega)).symm
  | succ n ih =>
      intro xs hx
      cases xs with
      | nil =>
          simp [batchifyGo_nil]
          exact (Nat.div_eq_of_lt (by omega)).symm
      | cons x rest =>
          have hlen : (rest.drop (B - 1)).length ≤ n := by
            have := List.length_drop (B - 1) rest
            simp at hx
            omega
          rw [batchifyGo_cons, List.length_cons, ih (rest.drop (B - 1)) hlen,
            List.length_drop, List.length_cons]
          have hBpos : 0 < B := hB
          rcases Nat.le_total (B - 1) rest.length with hc | hc
          · have e1 : rest.length - (B - 1) + B - 1 = rest.length := by omega
            have e2 : rest.length + 1 + B - 1 = rest.length + B := by omega
            rw [e1, e2, Nat.add_div_right _ hBpos]
          · have e1 : rest.length - (B - 1) + B - 1 = B - 1 := by omega
            have e2 : rest.length + 1 + B - 1 = rest.length + B := by omega
            rw [e1, e2, Nat.add_div_right _ hBpos,
              Nat.div_eq_of_lt (by omega), Nat.div_eq_of_lt (by omega)]

theorem batchifyGo_sizes (f : α → α) (B : Nat) (hB : 1 ≤ B) :
    ∀ fuel (xs : List α), xs.length ≤ fuel →
      ∀ b ∈ batchifyGo f B fuel xs, b.length ≤ B ∧ b ≠ [] := by
  intro fuel
  induction fuel with
  | zero =>
      intro xs hx
      have hnil : xs = [] := List.length_eq_zero.mp (Nat.le_zero.mp hx)
      subst hnil
      simp [batchifyGo_nil]
  | succ n ih =>
      intro xs hx b hb
      cases xs with
      | nil => simp [batchifyGo_nil] at hb
      | cons x rest =>
          rw [batchifyGo_cons] at hb
          have hlen : (rest.drop (B - 1)).length ≤ n := by
            have := List.length_drop (B - 1) rest
            simp at hx
            omega
          rcases List.mem_cons.mp hb with hhead | htail
          · subst hhead
            constructor
            · simp [List.length_take]
            · have hpos : 0 < (((x :: rest).take B).map f).length := by
                simp [List.length_take]
                omega
              exact List.length_pos.mp hpos
          · exact ih (rest.drop (B - 1)) hlen b htail

theorem batchifyGo_eq_nil_iff (f : α → α) (B : Nat) :
    ∀ fuel (xs : List α), xs.length ≤ fuel →
      (batchifyGo f B fuel xs = [] ↔ xs = []) := by
  intro fuel xs hx
  cases xs with
  | nil => simp [batchifyGo_nil]
  | cons x rest =>
      cases fuel with
      | zero => exact absurd hx (by simp)
      | succ n =>
          rw [batchifyGo_cons]
          simp

theorem batchifyGo_dropLast (f : α → α) (B : Nat) (hB : 1 ≤ B) :
    ∀ fuel (xs : List α), xs.length ≤ fuel →
      ∀ b ∈ (batchifyGo f B fuel xs).dropLast, b.length = B := by
  intro fuel
  induction fuel with
  | zero =>
      intro xs hx
      have hnil : xs = [] := List.length_eq_zero.mp (Nat.le_zero.mp hx)
      subst hnil
      simp [batchifyGo_nil]
  | succ n ih =>
      intro xs hx b hb
      cases xs with
      | nil => simp [batchifyGo_nil] at hb
      | cons x rest =>
          rw [batchifyGo_cons] at hb
          have hlen : (rest.drop (B - 1)).length ≤ n := by
            have := List.length_drop (B - 1) rest
            simp at hx
            omega
          cases hrec : batchifyGo f B n (rest.drop (B - 1)) with
          | nil => rw [hrec] at hb; simp at hb
          | cons r rs =>
              rw [hrec, List.dropLast_cons₂] at hb
              have hne : rest.drop (B - 1) ≠ [] := by
                intro hcon
                rw [hcon, batchifyGo_nil] at hrec
                exact List.noConfusion hrec
              have hrest : B ≤ rest.length := by
                have h1 : 0 < (rest.drop (B - 1)).length :=
                  List.length_pos.mpr hne
                rw [List.length_drop] at h1
                omega
              rcases List.mem_cons.mp hb with hhead | htail
              · subst hhead
                simp [List.length_take]
                omega
              · have := ih (rest.drop (B - 1)) hlen b
                rw [hrec] at this
                exact this htail

/-- C7: for every input sequence of N strings and every positive batch size
B, `batchify` yields exactly ceil(N/B) batches (zero for empty input); each
batch has at most B items and is nonempty; all batches except possibly the
last have exactly B items; and the concatenation of the batches, in
emission order, is exactly the preprocessed input sequence (so the batches
are non-overlapping, in input order, and cover the input exactly once). -/
theorem C7_batchify_partition (pre : Option (α → α)) (B : Nat)
    (xs : List α) (hB : 1 ≤ B) :
    (batchify pre B xs).length = (xs.length + B - 1) / B
    ∧ (batchify pre B xs).flatten = xs.map (applyPre pre)
    ∧ (∀ b ∈ batchify pre B xs, b.length ≤ B ∧ b ≠ [])
    ∧ (∀ b ∈ (batchify pre B xs).dropLast, b.length = B) := by
  refine ⟨?_, ?_, ?_, ?_⟩
  · exact batchifyGo_length (applyPre pre) B hB xs.length xs (Nat.le_refl _)
  · exact batchifyGo_join (applyPre pre) B hB xs.length xs (Nat.le_refl _)
  · exact batchifyGo_sizes (applyPre pre) B hB xs.length xs (Nat.le_refl _)
  · exact batchifyGo_dropLast (applyPre pre) B hB xs.length xs (Nat.le_refl _)

/-- Witness for C7 at the concrete input `["a", "b", "c"]` with batch size
2 and no preprocessing. -/
theorem C7_batchify_partition_witness :
    1 ≤ 2
    ∧ ((batchify (none : Option (String → String)) 2
          ["a", "b", "c"]).length = ((["a", "b", "c"] : List String).length + 2 - 1) / 2
      ∧ (batchify (none : Option (String → String)) 2
          ["a", "b", "c"]).flatten = (["a", "b", "c"] : List String).map (applyPre none)
      ∧ (∀ b ∈ batchify (none : Option (String → String)) 2 ["a", "b", "c"],
          b.length ≤ 2 ∧ b ≠ [])
      ∧ (∀ b ∈ (batchify (none : Option (String → String)) 2
          ["a", "b", "c"]).dropLast, b.length = 2)) :=
  ⟨by decide, C7_batchify_partition none 2 ["a", "b", "c"] (by decide)⟩

/-- A request to the Mistral embeddings endpoint:
`client.embeddings(model=..., input=...)`. -/
structure EmbedReq where
  model : String
  input : List PyVal
deriving Repr

/-- One element of the `data` field of an embeddings response; its
`embedding` field holds the vector, each float represented by its 32-bit
IEEE-754 bit pattern. -/
structure EmbedItem where
  embedding : List Nat
deriving Repr

/-- An embeddings response: the `data` field, one item per input text. -/
structure EmbedResp where
  data : List EmbedItem
deriving Repr

/-- The call site that issued a remote request: the one-time dimension
probe `_set_model_dims`, or one of the public embedding operations. -/
inductive Origin where
  | probe
  | operation
deriving DecidableEq, Repr

/-- A remote request together with the call site that issued it. -/
structure TracedReq where
  origin : Origin
  req : EmbedReq
deriving Repr

/-- Number of requests in a trace that were issued by the dimension
probe. -/
def probeCount (tr : List TracedReq) : Nat :=
  tr.countP (fun r => r.origin == Origin.probe)

/-- The vectorizer's per-instance state after construction: the `model`
and `dims` attributes set by `super().__init__`.  Neither is written again
after `__init__`. -/
structure Vectorizer where
  model : String
  dims : Nat
deriving Repr

/-- The remote client: a mapping from requests to a response or a raised
exception.  `MistralClient.embeddings` is external to the repository, so it
is opaque to the verification. -/
def Client : Type := EmbedReq → Except Err EmbedResp

/-- Encodes a 32-bit word as four bytes, little-endian. -/
def encodeLE32 (w : Nat) : List Nat :=
  [w % 256, w / 256 % 256, w / 65536 % 256, w / 16777216 % 256]

/-- Decodes a byte sequence as little-endian 32-bit words (trailing bytes
that do not fill a word are dropped). -/
def decodeLE32 : List Nat → List Nat
  | b0 :: b1 :: b2 :: b3 :: rest =>
      (b0 + 256 * b1 + 65536 * b2 + 16777216 * b3) :: decodeLE32 rest
  | _ => []

/-- Modelled from the spec: `array_to_buffer`, reached through
`_process_embedding` of `BaseVectorizer` (redisvl/utils/vectorize/base.py),
which is not part of the source under verification.  Per spec section 4.3
it encodes the vector as 32-bit little-endian floats concatenated in order;
floats are represented here by their 32-bit bit patterns. -/
def array_to_buffer (v : List Nat) : List Nat :=
  (v.map encodeLE32).flatten

/-- A normalized embedding: either the float vector unchanged or its
binary (byte string) encoding. -/
inductive ProcessedEmbedding where
  | floats (v : List Nat)
  | buffer (b : List Nat)
deriving Repr

/-- Modelled from the spec: `_process_embedding` of `BaseVectorizer`
(redisvl/utils/vectorize/base.py), which is not part of the source under
verification.  Per spec section 4.3 it returns the vector unchanged when
`as_buffer` is false and its little-endian 32-bit binary encoding when
`as_buffer` is true. -/
def process_embedding (e : List Nat) (asBuffer : Bool) : ProcessedEmbedding :=
  if asBuffer then .buffer (array_to_buffer e) else .floats e

/-- Python truthiness of the optional value bound to `api_key`. -/
def pyTruthy : Option PyVal → Bool
  | none => false
  | some v =>
      match v with
      | .str s => !(s == "")
      | .int n => !(n == 0)
      | .list xs => !xs.isEmpty
      | .noneV => false

/-- Python `dict.get`: the value bound to the first occurrence of the key,
if any. -/
def lookupKey (kvs : List (String × PyVal)) (k : String) : Option PyVal :=
  (kvs.find? (fun p => p.1 == k)).map (fun p => p.2)

/-- The credential resolution of `_initialize_clients`:
`api_config.get("api_key") if api_config else os.getenv("MISTRAL_API_KEY")`.
A `dict` is truthy exactly when it is non-empty, so a present but empty
`api_config` falls through to the environment. -/
def resolveApiKey (apiConfig : Option (List (String × PyVal)))
    (env : String → Option String) : Option PyVal :=
  match apiConfig with
  | some kvs =>
      if kvs.isEmpty then (env "MISTRAL_API_KEY").map PyVal.str
      else lookupKey kvs "api_key"
  | none => (env "MISTRAL_API_KEY").map PyVal.str

/-- The error message raised by `_initialize_clients` when no (truthy)
API key is found. -/
def missingKeyMsg : String :=
  "MISTRAL API key is required. Provide it in api_config or set the MISTRAL_API_KEY environment variable."

/-- The body of `_initialize_clients`: resolves the credential and fails
with `ValueError` when it is falsy.  The dynamic `mistralai` import (whose
absence raises `ImportError`) is outside the embedded model: the library is
assumed installed. -/
def initClients (apiConfig : Option (List (String × PyVal)))
    (env : String → Option String) : Except Err PyVal :=
  let apiKey := resolveApiKey apiConfig env
  if pyTruthy apiKey then .ok (apiKey.getD PyVal.noneV)
  else .error (.valueError missingKeyMsg)

/-- The fixed sentinel input of the dimension probe:
`input=["dimension test"]`. -/
def dimensionTestInput : List PyVal := [PyVal.str "dimension test"]

/-- The message of the `ValueError` raised by `_set_model_dims`: the first
`except` clause catches `KeyError` and `IndexError`, the second every other
exception; both embed `str` of the cause. -/
def probeErrorMsg (e : Err) : String :=
  if isKeyOrIndexError e then
    "Unexpected response from the MISTRAL API: " ++ errStr e
  else
    "Error setting embedding model dimensions: " ++ errStr e

/-- `_set_model_dims`: issues one embeddings request with the sentinel
input and returns the length of the first returned vector; any raised
exception (including the `IndexError` from `.data[0]` on an empty `data`)
is converted to a `ValueError` carrying the cause.  The second component is
the list of issued remote requests. -/
def set_model_dims (client : Client) (model : String) :
    Except Err Nat × List TracedReq :=
  let req : EmbedReq := ⟨model, dimensionTestInput⟩
  let out : Except Err Nat :=
    match client req with
    | .error e => .error (.valueError (probeErrorMsg e))
    | .ok resp =>
        match resp.data.head? with
        | none =>
            .error (.valueError
              (probeErrorMsg (.indexError "list index out of range")))
        | some item => .ok item.embedding.length
  (out, [⟨Origin.probe, req⟩])

/-- `__init__`: initializes the clients (credential resolution), then runs
the dimension probe once and stores `model` and the probed `dims`.  The
second component is the list of remote requests issued during
construction. -/
def mistralInit (apiConfig : Option (List (String × PyVal)))
    (env : String → Option String) (client : Client) (model : String) :
    Except Err Vectorizer × List TracedReq :=
  match initClients apiConfig env with
  | .error e => (.error e, [])
  | .ok _ =>
      match set_model_dims client model with
      | (.error e, tr) => (.error e, tr)
      | (.ok d, tr) => (.ok ⟨model, d⟩, tr)

/-- The validation error message of `embed` and `aembed`. -/
def embedTypeMsg : String := "Must pass in a str value to embed."

/-- The validation error message of `embed_many` and `aembed_many`. -/
def embedManyTypeMsg : String := "Must pass in a list of str values to embed."

/-- One (unretried) invocation of the body of `embed`/`aembed`: validate
that the input is a string, apply `preprocess`, issue a single-item
request, and normalize the first vector of the response.  Returns the
result together with the issued remote requests. -/
def embedOnce (v : Vectorizer) (client : Client) (text : PyVal)
    (pre : Option (PyVal → PyVal)) (asBuffer : Bool) :
    Except Err ProcessedEmbedding × List TracedReq :=
  match text with
  | .str s =>
      let t := applyPre pre (PyVal.str s)
      let req : EmbedReq := ⟨v.model, [t]⟩
      match client req with
      | .error e => (.error e, [⟨Origin.operation, req⟩])
      | .ok result =>
          match result.data.head? with
          | none =>
              (.error (.indexError "list index out of range"),
                [⟨Origin.operation, req⟩])
          | some item =>
              (.ok (process_embedding item.embedding asBuffer),
                [⟨Origin.operation, req⟩])
  | _ => (.error (.typeError embedTypeMsg), [])

/-- The loop of `embed_many`/`aembed_many` over the batches: one request
per batch, normalizing every vector of each response and concatenating the
results in order; a raised exception stops the loop and propagates. -/
def processBatches (v : Vectorizer) (client : Client) (asBuffer : Bool) :
    List (List PyVal) → Except Err (List ProcessedEmbedding) × List TracedReq
  | [] => (.ok [], [])
  | batch :: rest =>
      let req : EmbedReq := ⟨v.model, batch⟩
      match client req with
      | .error e => (.error e, [⟨Origin.operation, req⟩])
      | .ok resp =>
          match processBatches v client asBuffer rest with
          | (out, tr) =>
              (out.map (fun l =>
                  resp.data.map
                    (fun r => process_embedding r.embedding asBuffer) ++ l),
                ⟨Origin.operation, req⟩ :: tr)

/-- The cheap shape check of `embed_many`/`aembed_many`: the argument is
not a list, or it is non-empty and its first element is not a string. -/
def embedManyShapeFails (texts : PyVal) : Bool :=
  match texts with
  | .list xs =>
      match xs with
      | [] => false
      | x :: _ => !(pyIsStr x)
  | _ => true

/-- One (unretried) invocation of the body of `embed_many`/`aembed_many`:
validate the container type and the type of the first element (only), then
batch the input and process each batch. -/
def embed_manyOnce (v : Vectorizer) (client : Client) (texts : PyVal)
    (pre : Option (PyVal → PyVal)) (batchSize : Nat) (asBuffer : Bool) :
    Except Err (List ProcessedEmbedding) × List TracedReq :=
  match texts with
  | .list xs =>
      match xs with
      | [] => processBatches v client asBuffer (batchify pre batchSize [])
      | x :: rest =>
          if pyIsStr x then
            processBatches v client asBuffer
              (batchify pre batchSize (x :: rest))
          else (.error (.typeError embedManyTypeMsg), [])
  | _ => (.error (.typeError embedManyTypeMsg), [])

/-- A retry policy as configured by the `tenacity` decorator: the wait
window bounds of `wait_random_exponential`, the attempt cap of
`stop_after_attempt`, and the retry-eligibility predicate over raised
errors. -/
structure RetryPolicy where
  waitMin : Nat
  waitMax : Nat
  maxAttempts : Nat
  retryOn : Err → Bool

/-- `retry_if_not_exception_type(TypeError)`: retry exactly the errors
that are not `TypeError`. -/
def mistralRetryOn (e : Err) : Bool := !(isTypeError e)

/-- The decorator configuration on `embed_many` (mistral.py lines
108-112). -/
def embedManyRetryPolicy : RetryPolicy := ⟨1, 60, 6, mistralRetryOn⟩

/-- The decorator configuration on `embed` (mistral.py lines 151-155). -/
def embedRetryPolicy : RetryPolicy := ⟨1, 60, 6, mistralRetryOn⟩

/-- The decorator configuration on `aembed_many` (mistral.py lines
186-190). -/
def aembedManyRetryPolicy : RetryPolicy := ⟨1, 60, 6, mistralRetryOn⟩

/-- The decorator configuration on `aembed` (mistral.py lines 229-233). -/
def aembedRetryPolicy : RetryPolicy := ⟨1, 60, 6, mistralRetryOn⟩

/-- The upper edge of the randomized exponential wait window before retry
attempt `n + 1`, after `n` failed attempts (modelled from spec section 4.4
and the `wait_random_exponential(min=1, max=60)` configuration: an
exponentially growing value clamped between the configured bounds;
`tenacity` itself is an external library). -/
def waitWindow (waitMin waitMax : Nat) (n : Nat) : Nat :=
  max waitMin (min (2 ^ (n - 1)) waitMax)

/-- The retry loop (modelled from spec section 4.4 and the `tenacity`
configuration): `op n` is the outcome of the `n`-th invocation of the
wrapped body, together with the remote requests that invocation issued.
The loop returns the final outcome, the concatenation of all issued
requests, and the number of attempts made.  A non-retryable error stops
immediately; when the attempt budget (`fuel` remaining retries) is
exhausted the last error propagates. -/
def retryGo (retryOn : Err → Bool)
    (op : Nat → Except Err α × List TracedReq) (attempt : Nat) :
    Nat → Except Err α × List TracedReq × Nat
  | 0 =>
      match op attempt with
      | (.ok a, tr) => (.ok a, tr, attempt)
      | (.error e, tr) => (.error e, tr, attempt)
  | fuel + 1 =>
      match op attempt with
      | (.ok a, tr) => (.ok a, tr, attempt)
      | (.error e, tr) =>
          if retryOn e then
            match retryGo retryOn op (attempt + 1) fuel with
            | (out, tr2, k) => (out, tr ++ tr2, k)
          else (.error e, tr, attempt)

/-- Runs a wrapped operation under a retry policy, starting at attempt 1
with `maxAttempts - 1` retries in the budget. -/
def retryCall (P : RetryPolicy)
    (op : Nat → Except Err α × List TracedReq) :
    Except Err α × List TracedReq × Nat :=
  retryGo P.retryOn op 1 (P.maxAttempts - 1)

/-- The public `embed`: the body under the retry decorator.  The client
may behave differently on each attempt (`client n` is its behaviour during
attempt `n`). -/
def embed (v : Vectorizer) (client : Nat → Client) (text : PyVal)
    (pre : Option (PyVal → PyVal)) (asBuffer : Bool) :
    Except Err ProcessedEmbedding × List TracedReq × Nat :=
  retryCall embedRetryPolicy (fun n => embedOnce v (client n) text pre asBuffer)

/-- The public `embed_many`: the body under the retry decorator. -/
def embed_many (v : Vectorizer) (client : Nat → Client) (texts : PyVal)
    (pre : Option (PyVal → PyVal)) (batchSize : Nat) (asBuffer : Bool) :
    Except Err (List ProcessedEmbedding) × List TracedReq × Nat :=
  retryCall embedManyRetryPolicy
    (fun n => embed_manyOnce v (client n) texts pre batchSize asBuffer)

/-- The public `aembed`: same body as `embed` (await points aside), using
the async client and its own decorator instance. -/
def aembed (v : Vectorizer) (aclient : Nat → Client) (text : PyVal)
    (pre : Option (PyVal → PyVal)) (asBuffer : Bool) :
    Except Err ProcessedEmbedding × List TracedReq × Nat :=
  retryCall aembedRetryPolicy
    (fun n => embedOnce v (aclient n) text pre asBuffer)

/-- The public `aembed_many`: same body as `embed_many` (await points
aside), using the async client and its own decorator instance. -/
def aembed_many (v : Vectorizer) (aclient : Nat → Client) (texts : PyVal)
    (pre : Option (PyVal → PyVal)) (batchSize : Nat) (asBuffer : Bool) :
    Except Err (List ProcessedEmbedding) × List TracedReq × Nat :=
  retryCall aembedManyRetryPolicy
    (fun n => embed_manyOnce v (aclient n) texts pre batchSize asBuffer)

theorem retryGo_ok (retryOn : Err → Bool)
    (op : Nat → Except Err α × List TracedReq) (attempt fuel : Nat)
    (a : α) (tr : List TracedReq) (h : op attempt = (.ok a, tr)) :
    retryGo retryOn op attempt fuel = (.ok a, tr, attempt) := by
  cases fuel <;> simp [retryGo, h]

theorem retryGo_no_retry (retryOn : Err → Bool)
    (op : Nat → Except Err α × List TracedReq) (attempt fuel : Nat)
    (e : Err) (tr : List TracedReq) (h : op attempt = (.error e, tr))
    (he : retryOn e = false) :
    retryGo retryOn op attempt fuel = (.error e, tr, attempt) := by
  cases fuel <;> simp [retryGo, h, he]

theorem retryGo_attempts_le (retryOn : Err → Bool)
    (op : Nat → Except Err α × List TracedReq) :
    ∀ fuel attempt, (retryGo retryOn op attempt fuel).2.2 ≤ attempt + fuel := by
  intro fuel
  induction fuel with
  | zero =>
      intro attempt
      rcases h : op attempt with ⟨out, tr⟩
      cases out <;> simp [retryGo, h]
  | succ n ih =>
      intro attempt
      rcases h : op attempt with ⟨out, tr⟩
      cases out with
      | ok a => simp [retryGo, h]
      | error e =>
          by_cases he : retryOn e
          · rcases hrec : retryGo retryOn op (attempt + 1) n with ⟨out2, tr2, k⟩
            have := ih (attempt + 1)
            rw [hrec] at this
            simp only at this
            simp [retryGo, h, he, hrec]
            omega
          · simp [retryGo, h, he]

theorem retryGo_attempts_ge (retryOn : Err → Bool)
    (op : Nat → Except Err α × List TracedReq) :
    ∀ fuel attempt, attempt ≤ (retryGo retryOn op attempt fuel).2.2 := by
  intro fuel
  induction fuel with
  | zero =>
      intro attempt
      rcases h : op attempt with ⟨out, tr⟩
      cases out <;> simp [retryGo, h]
  | succ n ih =>
      intro attempt
      rcases h : op attempt with ⟨out, tr⟩
      cases out with
      | ok a => simp [retryGo, h]
      | error e =>
          by_cases he : retryOn e
          · rcases hrec : retryGo retryOn op (attempt + 1) n with ⟨out2, tr2, k⟩
            have := ih (attempt + 1)
            rw [hrec] at this
            simp only at this
            simp [retryGo, h, he, hrec]
            omega
          · simp [retryGo, h, he]

theorem retryGo_all_fail (retryOn : Err → Bool)
    (op : Nat → Except Err α × List TracedReq) :
    ∀ fuel attempt,
      (∀ n, attempt ≤ n → n ≤ attempt + fuel →
        ∃ e tr, op n = (.error e, tr) ∧ retryOn e = true) →
      ∃ e tr trAll, op (attempt + fuel) = (.error e, tr)
        ∧ retryGo retryOn op attempt fuel = (.error e, trAll, attempt + fuel) := by
  intro fuel
  induction fuel with
  | zero =>
      intro attempt hall
      rcases hall attempt (Nat.le_refl _) (by omega) with ⟨e, tr, hop, he⟩
      refine ⟨e, tr, tr, by simpa using hop, ?_⟩
      simp [retryGo, hop]
  | succ n ih =>
      intro attempt hall
      rcases hall attempt (Nat.le_refl _) (by omega) with ⟨e, tr, hop, he⟩
      have hall' : ∀ m, attempt + 1 ≤ m → m ≤ attempt + 1 + n →
          ∃ e tr, op m = (.error e, tr) ∧ retryOn e = true := by
        intro m h1 h2
        exact hall m (by omega) (by omega)
      rcases ih (attempt + 1) hall' with ⟨e2, tr2, trAll2, hop2, hrec⟩
      refine ⟨e2, tr2, tr ++ trAll2, ?_, ?_⟩
      · have : attempt + 1 + n = attempt + (n + 1) := by omega
        rw [this] at hop2
        exact hop2
      · have heq : attempt + (n + 1) = attempt + 1 + n := by omega
        rw [heq]
        simp [retryGo, hop, he, hrec]

theorem retryGo_const_err (retryOn : Err → Bool)
    (op : Nat → Except Err α × List TracedReq) (e : Err)
    (h : ∀ n, op n = (.error e, [])) :
    ∀ fuel attempt, ∃ k,
      retryGo retryOn op attempt fuel = (.error e, [], k) := by
  intro fuel
  induction fuel with
  | zero =>
      intro attempt
      exact ⟨attempt, by simp [retryGo, h attempt]⟩
  | succ n ih =>
      intro attempt
      by_cases he : retryOn e
      · rcases ih (attempt + 1) with ⟨k, hrec⟩
        exact ⟨k, by simp [retryGo, h attempt, he, hrec]⟩
      · exact ⟨attempt, by simp [retryGo, h attempt, he]⟩

theorem retryGo_err_source (retryOn : Err → Bool)
    (op : Nat → Except Err α × List TracedReq) (e : Err) :
    ∀ fuel attempt trAll k,
      retryGo retryOn op attempt fuel = (.error e, trAll, k) →
      ∃ tr, op k = (.error e, tr) := by
  intro fuel
  induction fuel with
  | zero =>
      intro attempt trAll k hrun
      rcases h : op attempt with ⟨out, tr⟩
      cases out with
      | ok a => rw [retryGo_ok retryOn op attempt 0 a tr h] at hrun; exact absurd hrun (by simp)
      | error e' =>
          simp [retryGo, h] at hrun
          exact ⟨tr, by rw [← hrun.2.2, h, hrun.1]⟩
  | succ n ih =>
      intro attempt trAll k hrun
      rcases h : op attempt with ⟨out, tr⟩
      cases out with
      | ok a => rw [retryGo_ok retryOn op attempt (n + 1) a tr h] at hrun; exact absurd hrun (by simp)
      | error e' =>
          by_cases he : retryOn e'
          · rcases hrec : retryGo retryOn op (attempt + 1) n with ⟨out2, tr2, k2⟩
            simp [retryGo, h, he, hrec] at hrun
            rcases hrun with ⟨h1, _, h3⟩
            subst h1 h3
            exact ih (attempt + 1) tr2 k2 hrec
          · simp [retryGo, h, he] at hrun
            exact ⟨tr, by rw [← hrun.2.2, h, hrun.1]⟩

theorem retryGo_trace_probeCount (retryOn : Err → Bool)
    (op : Nat → Except Err α × List TracedReq)
    (h : ∀ n, probeCount (op n).2 = 0) :
    ∀ fuel attempt, probeCount (retryGo retryOn op attempt fuel).2.1 = 0 := by
  intro fuel
  induction fuel with
  | zero =>
      intro attempt
      rcases hop : op attempt with ⟨out, tr⟩
      have htr := h attempt
      rw [hop] at htr
      cases out <;> simpa [retryGo, hop] using htr
  | succ n ih =>
      intro attempt
      rcases hop : op attempt with ⟨out, tr⟩
      have htr := h attempt
      rw [hop] at htr
      cases out with
      | ok a => simpa [retryGo, hop] using htr
      | error e =>
          by_cases he : retryOn e
          · rcases hrec : retryGo retryOn op (attempt + 1) n with ⟨out2, tr2, k⟩
            have := ih (attempt + 1)
            rw [hrec] at this
            simp only at this
            simp only [retryGo, hop, he, if_true, hrec]
            simp only [probeCount, List.countP_append] at htr this ⊢
            omega
          · simpa [retryGo, hop, he] using htr

theorem retryGo_err_step (retryOn : Err → Bool)
    (op : Nat → Except Err α × List TracedReq) (attempt fuel : Nat)
    (e : Err) (tr : List TracedReq) (h : op attempt = (.error e, tr))
    (he : retryOn e = true) :
    retryGo retryOn op attempt (fuel + 1) =
      ((retryGo retryOn op (attempt + 1) fuel).1,
        tr ++ (retryGo retryOn op (attempt + 1) fuel).2.1,
        (retryGo retryOn op (attempt + 1) fuel).2.2) := by
  rcases hrec : retryGo retryOn op (attempt + 1) fuel with ⟨o, t, k⟩
  simp [retryGo, h, he, hrec]

theorem retryStdFacts (P : RetryPolicy)
    (hP : P = ⟨1, 60, 6, mistralRetryOn⟩) :
    (P.waitMin = 1 ∧ P.waitMax = 60 ∧ P.maxAttempts = 6)
    ∧ (∀ n, 1 ≤ waitWindow P.waitMin P.waitMax n
        ∧ waitWindow P.waitMin P.waitMax n ≤ 60)
    ∧ (∀ (α : Type) (op : Nat → Except Err α × List TracedReq),
        (1 ≤ (retryCall P op).2.2 ∧ (retryCall P op).2.2 ≤ 6)
        ∧ (∀ e tr, op 1 = (.error e, tr) → isTypeError e = true →
            retryCall P op = (.error e, tr, 1))
        ∧ (∀ e tr a tr2, op 1 = (.error e, tr) → isTypeError e = false →
            op 2 = (.ok a, tr2) →
            retryCall P op = (.ok a, tr ++ tr2, 2))
        ∧ ((∀ n, 1 ≤ n → n ≤ 6 →
              ∃ e tr, op n = (.error e, tr) ∧ isTypeError e = false) →
            ∃ e tr trAll, op 6 = (.error e, tr)
              ∧ retryCall P op = (.error e, trAll, 6))) := by
  subst hP
  refine ⟨⟨rfl, rfl, rfl⟩, ?_, ?_⟩
  · intro n
    constructor
    · exact Nat.le_max_left _ _
    · exact Nat.max_le.mpr ⟨by decide, Nat.le_trans (Nat.min_le_right _ _) (by decide)⟩
  · intro α op
    refine ⟨⟨?_, ?_⟩, ?_, ?_, ?_⟩
    · exact retryGo_attempts_ge mistralRetryOn op 5 1
    · exact retryGo_attempts_le mistralRetryOn op 5 1
    · intro e tr hop hte
      exact retryGo_no_retry mistralRetryOn op 1 5 e tr hop
        (by simp [mistralRetryOn, hte])
    · intro e tr a tr2 hop1 hte hop2
      have hret : mistralRetryOn e = true := by simp [mistralRetryOn, hte]
      have h2 : retryGo mistralRetryOn op 2 4 = (.ok a, tr2, 2) :=
        retryGo_ok mistralRetryOn op 2 4 a tr2 hop2
      have hstep := retryGo_err_step mistralRetryOn op 1 4 e tr hop1 hret
      rw [show retryCall ⟨1, 60, 6, mistralRetryOn⟩ op
          = retryGo mistralRetryOn op 1 (4 + 1) from rfl, hstep, h2]
    · intro hall
      have := retryGo_all_fail mistralRetryOn op 5 1 (by
        intro n h1 h2
        rcases hall n h1 (by omega) with ⟨e, tr, hop, hte⟩
        exact ⟨e, tr, hop, by simp [mistralRetryOn, hte]⟩)
      simpa using this

/-- C1: each of the four public embedding operations (`embed`,
`embed_many`, `aembed`, `aembed_many`) carries an identical retry
configuration: randomized exponential backoff whose wait window is bounded
below by 1 and above by 60 time-units, at most 6 total attempts, no retry
of `TypeError` (it propagates on its first occurrence; a retryable failure
followed by a success is retried), and after 6 failed attempts the last
raised error propagates to the caller. -/
theorem C1_retry_policy :
    ∀ P ∈ [embedRetryPolicy, embedManyRetryPolicy, aembedRetryPolicy,
      aembedManyRetryPolicy],
      (P.waitMin = 1 ∧ P.waitMax = 60 ∧ P.maxAttempts = 6)
      ∧ (∀ n, 1 ≤ waitWindow P.waitMin P.waitMax n
          ∧ waitWindow P.waitMin P.waitMax n ≤ 60)
      ∧ (∀ (α : Type) (op : Nat → Except Err α × List TracedReq),
          (1 ≤ (retryCall P op).2.2 ∧ (retryCall P op).2.2 ≤ 6)
          ∧ (∀ e tr, op 1 = (.error e, tr) → isTypeError e = true →
              retryCall P op = (.error e, tr, 1))
          ∧ (∀ e tr a tr2, op 1 = (.error e, tr) → isTypeError e = false →
              op 2 = (.ok a, tr2) →
              retryCall P op = (.ok a, tr ++ tr2, 2))
          ∧ ((∀ n, 1 ≤ n → n ≤ 6 →
                ∃ e tr, op n = (.error e, tr) ∧ isTypeError e = false) →
              ∃ e tr trAll, op 6 = (.error e, tr)
                ∧ retryCall P op = (.error e, trAll, 6))) := by
  intro P hP
  simp only [List.mem_cons, List.not_mem_nil, or_false] at hP
  rcases hP with rfl | rfl | rfl | rfl <;> exact retryStdFacts _ rfl

/-- Witness for C1: the `embed` policy, run on an operation that fails
every attempt with a retryable provider error, makes exactly 6 attempts
and propagates the last error. -/
theorem C1_retry_policy_witness :
    (embedRetryPolicy ∈ [embedRetryPolicy, embedManyRetryPolicy,
      aembedRetryPolicy, aembedManyRetryPolicy])
    ∧ (∃ e tr trAll,
        ((fun _ => ((.error (.providerError "boom") : Except Err Unit), ([] : List TracedReq))) : Nat → Except Err Unit × List TracedReq) 6 = (.error e, tr)
        ∧ retryCall embedRetryPolicy
            (fun _ => ((.error (.providerError "boom") : Except Err Unit), ([] : List TracedReq)))
          = (.error e, trAll, 6)) :=
  ⟨List.Mem.head _,
    ((C1_retry_policy embedRetryPolicy (List.Mem.head _)).2.2 Unit
        (fun _ => (.error (.providerError "boom"), []))).2.2.2
      (fun _ _ _ => ⟨.providerError "boom", [], rfl, rfl⟩)⟩

theorem embedOnce_nonstring (v : Vectorizer) (client : Client)
    (text : PyVal) (pre : Option (PyVal → PyVal)) (asBuffer : Bool)
    (h : pyIsStr text = false) :
    embedOnce v client text pre asBuffer
      = (.error (.typeError embedTypeMsg), []) := by
  cases text with
  | str s => simp [pyIsStr] at h
  | int n => rfl
  | list xs => rfl
  | noneV => rfl

/-- C2: for every input value that is not a string, `embed` (and `aembed`)
fails with the validation `TypeError` after a single attempt and the remote
provider is never invoked — the issued-request trace is empty — and this
holds under any retry policy whatsoever. -/
theorem C2_embed_nonstring (v : Vectorizer) (client : Nat → Client)
    (text : PyVal) (pre : Option (PyVal → PyVal)) (asBuffer : Bool)
    (h : pyIsStr text = false) :
    embed v client text pre asBuffer
      = (.error (.typeError embedTypeMsg), [], 1)
    ∧ aembed v client text pre asBuffer
      = (.error (.typeError embedTypeMsg), [], 1)
    ∧ (∀ P : RetryPolicy, ∃ k,
        retryCall P (fun n => embedOnce v (client n) text pre asBuffer)
          = (.error (.typeError embedTypeMsg), [], k)) := by
  have honce : ∀ n, embedOnce v (client n) text pre asBuffer
      = (.error (.typeError embedTypeMsg), []) :=
    fun n => embedOnce_nonstring v (client n) text pre asBuffer h
  refine ⟨?_, ?_, ?_⟩
  · show retryGo mistralRetryOn
        (fun n => embedOnce v (client n) text pre asBuffer) 1 5
      = (.error (.typeError embedTypeMsg), [], 1)
    exact retryGo_no_retry mistralRetryOn _ 1 5 _ [] (honce 1) rfl
  · show retryGo mistralRetryOn
        (fun n => embedOnce v (client n) text pre asBuffer) 1 5
      = (.error (.typeError embedTypeMsg), [], 1)
    exact retryGo_no_retry mistralRetryOn _ 1 5 _ [] (honce 1) rfl
  · intro P
    exact retryGo_const_err P.retryOn _ _ honce (P.maxAttempts - 1) 1

/-- Witness for C2 at the concrete non-string input `123`. -/
theorem C2_embed_nonstring_witness :
    pyIsStr (PyVal.int 123) = false
    ∧ embed ⟨"mistral-embed", 1024⟩ (fun _ _ => .ok ⟨[]⟩) (PyVal.int 123)
        none false = (.error (.typeError embedTypeMsg), [], 1) :=
  ⟨rfl, (C2_embed_nonstring ⟨"mistral-embed", 1024⟩ (fun _ _ => .ok ⟨[]⟩)
    (PyVal.int 123) none false rfl).1⟩

/-- C10: for the empty input list, `embed_many` and `aembed_many` return
the empty list after one attempt, issuing zero remote requests and raising
no error. -/
theorem C10_embed_many_empty (v : Vectorizer) (client : Nat → Client)
    (pre : Option (PyVal → PyVal)) (batchSize : Nat) (asBuffer : Bool) :
    embed_many v client (PyVal.list []) pre batchSize asBuffer
      = (.ok [], [], 1)
    ∧ aembed_many v client (PyVal.list []) pre batchSize asBuffer
      = (.ok [], [], 1) := by
  have honce : ∀ n, embed_manyOnce v (client n) (PyVal.list []) pre
      batchSize asBuffer = (.ok [], []) := fun n => rfl
  constructor
  · show retryGo mistralRetryOn (fun n => embed_manyOnce v (client n)
        (PyVal.list []) pre batchSize asBuffer) 1 5 = (.ok [], [], 1)
    exact retryGo_ok mistralRetryOn _ 1 5 [] [] (honce 1)
  · show retryGo mistralRetryOn (fun n => embed_manyOnce v (client n)
        (PyVal.list []) pre batchSize asBuffer) 1 5 = (.ok [], [], 1)
    exact retryGo_ok mistralRetryOn _ 1 5 [] [] (honce 1)

/-- Whether a result is a raised `TypeError` (the spec's
`InputTypeError`). -/
def raisesTypeError : Except Err β → Bool
  | .error e => isTypeError e
  | .ok _ => false

theorem embed_manyOnce_invalid (v : Vectorizer) (client : Client)
    (texts : PyVal) (pre : Option (PyVal → PyVal)) (batchSize : Nat)
    (asBuffer : Bool) (h : embedManyShapeFails texts = true) :
    embed_manyOnce v client texts pre batchSize asBuffer
      = (.error (.typeError embedManyTypeMsg), []) := by
  cases texts with
  | str s => rfl
  | int n => rfl
  | noneV => rfl
  | list xs =>
      cases xs with
      | nil => simp [embedManyShapeFails] at h
      | cons x rest =>
          have hx : pyIsStr x = false := by
            simpa [embedManyShapeFails] using h
          simp [embed_manyOnce, hx]

theorem processBatches_err (v : Vectorizer) (client : Client) (ab : Bool) :
    ∀ batches e tr, processBatches v client ab batches = (.error e, tr) →
      ∃ req, client req = .error e := by
  intro batches
  induction batches with
  | nil => intro e tr h; exact absurd h (by simp [processBatches])
  | cons b rest ih =>
      intro e tr h
      cases hc : client ⟨v.model, b⟩ with
      | error e2 =>
          simp [processBatches, hc] at h
          exact ⟨⟨v.model, b⟩, by rw [hc, h.1]⟩
      | ok resp =>
          rcases hrec : processBatches v client ab rest with ⟨out, tr2⟩
          cases out with
          | error e2 =>
              simp [processBatches, hc, hrec, Except.map] at h
              rcases ih e2 tr2 hrec with ⟨req, hreq⟩
              exact ⟨req, by rw [hreq, h.1]⟩
          | ok l => simp [processBatches, hc, hrec, Except.map] at h

theorem embed_manyOnce_err (v : Vectorizer) (client : Client)
    (texts : PyVal) (pre : Option (PyVal → PyVal)) (batchSize : Nat)
    (asBuffer : Bool) (hshape : embedManyShapeFails texts = false)
    (e : Err) (tr : List TracedReq)
    (h : embed_manyOnce v client texts pre batchSize asBuffer
      = (.error e, tr)) :
    ∃ req, client req = .error e := by
  cases texts with
  | str s => simp [embedManyShapeFails] at hshape
  | int n => simp [embedManyShapeFails] at hshape
  | noneV => simp [embedManyShapeFails] at hshape
  | list xs =>
      cases xs with
      | nil =>
          exact processBatches_err v client asBuffer _ e tr h
      | cons x rest =>
          have hx : pyIsStr x = true := by
            simpa [embedManyShapeFails] using hshape
          rw [show embed_manyOnce v client (PyVal.list (x :: rest)) pre
              batchSize asBuffer = processBatches v client asBuffer
                (batchify pre batchSize (x :: rest)) by
            simp [embed_manyOnce, hx]] at h
          exact processBatches_err v client asBuffer _ e tr h

/-- C3: `embed_many` (and `aembed_many`) raises a `TypeError` exactly when
the cheap shape check fails — the argument is not a list, or is a non-empty
list whose first element is not a string — assuming the remote client never
itself raises `TypeError`; in particular a non-empty list whose first
element is a string but whose later elements are not passes validation. -/
theorem C3_embed_many_validation (v : Vectorizer) (client : Nat → Client)
    (texts : PyVal) (pre : Option (PyVal → PyVal)) (batchSize : Nat)
    (asBuffer : Bool)
    (hc : ∀ n req e, client n req = .error e → isTypeError e = false) :
    raisesTypeError (embed_many v client texts pre batchSize asBuffer).1
      = embedManyShapeFails texts
    ∧ raisesTypeError (aembed_many v client texts pre batchSize asBuffer).1
      = embedManyShapeFails texts
    ∧ (∀ s rest, embedManyShapeFails (PyVal.list (PyVal.str s :: rest))
        = false) := by
  have main : raisesTypeError
      (retryGo mistralRetryOn
        (fun n => embed_manyOnce v (client n) texts pre batchSize asBuffer)
        1 5).1 = embedManyShapeFails texts := by
    cases hshape : embedManyShapeFails texts with
    | true =>
        have honce : embed_manyOnce v (client 1) texts pre batchSize asBuffer
            = (.error (.typeError embedManyTypeMsg), []) :=
          embed_manyOnce_invalid v (client 1) texts pre batchSize asBuffer
            hshape
        rw [retryGo_no_retry mistralRetryOn _ 1 5
          (.typeError embedManyTypeMsg) [] honce rfl]
        rfl
    | false =>
        rcases hres : retryGo mistralRetryOn
            (fun n => embed_manyOnce v (client n) texts pre batchSize
              asBuffer) 1 5 with ⟨out, trAll, k⟩
        cases out with
        | ok l => simp [raisesTypeError]
        | error e =>
            rcases retryGo_err_source mistralRetryOn _ e 5 1 trAll k hres
              with ⟨tr, hop⟩
            rcases embed_manyOnce_err v (client k) texts pre batchSize
              asBuffer hshape e tr hop with ⟨req, hreq⟩
            simpa [raisesTypeError] using hc k req e hreq
  refine ⟨main, main, ?_⟩
  intro s rest
  simp [embedManyShapeFails, pyIsStr]

/-- Witness for C3: with a client that only raises provider errors, the
input `["ok", 7]` — list, first element a string, second an integer —
does not raise `TypeError`, while the non-list input `7` does. -/
theorem C3_embed_many_validation_witness :
    (∀ n req e, ((fun _ _ => .error (.providerError "down")) : Nat → Client)
        n req = .error e → isTypeError e = false)
    ∧ raisesTypeError
        (embed_many ⟨"mistral-embed", 8⟩
          (fun _ _ => .error (.providerError "down"))
          (PyVal.list [PyVal.str "ok", PyVal.int 7]) none 10 false).1
      = embedManyShapeFails (PyVal.list [PyVal.str "ok", PyVal.int 7])
    ∧ raisesTypeError
        (embed_many ⟨"mistral-embed", 8⟩
          (fun _ _ => .error (.providerError "down"))
          (PyVal.int 7) none 10 false).1
      = embedManyShapeFails (PyVal.int 7) := by
  have hc : ∀ n req e, ((fun _ _ => .error (.providerError "down"))
      : Nat → Client) n req = .error e → isTypeError e = false := by
    intro n req e h
    cases h
    rfl
  exact ⟨hc,
    (C3_embed_many_validation ⟨"mistral-embed", 8⟩
      (fun _ _ => .error (.providerError "down"))
      (PyVal.list [PyVal.str "ok", PyVal.int 7]) none 10 false hc).1,
    (C3_embed_many_validation ⟨"mistral-embed", 8⟩
      (fun _ _ => .error (.providerError "down"))
      (PyVal.int 7) none 10 false hc).1⟩

theorem decodeLE32_encode (w : Nat) (hw : w < 4294967296)
    (rest : List Nat) :
    decodeLE32 (encodeLE32 w ++ rest) = w :: decodeLE32 rest := by
  simp only [encodeLE32, List.cons_append, List.nil_append, decodeLE32,
    List.cons.injEq]
  constructor
  · omega
  · rfl

/-- C9: with `as_binary` false the vector is returned unchanged; with
`as_binary` true the output is the concatenation of the elements' 4-byte
little-endian encodings in order, and decoding that buffer as little-endian
32-bit words reproduces the original sequence exactly (floats are
represented by their 32-bit IEEE-754 bit patterns, so bit-exact round-trip
is precision-exact round-trip). -/
theorem C9_process_embedding (v : List Nat)
    (hv : ∀ w ∈ v, w < 4294967296) :
    process_embedding v false = .floats v
    ∧ process_embedding v true = .buffer (array_to_buffer v)
    ∧ array_to_buffer v = (v.map encodeLE32).flatten
    ∧ decodeLE32 (array_to_buffer v) = v := by
  refine ⟨rfl, rfl, rfl, ?_⟩
  induction v with
  | nil => rfl
  | cons w ws ih =>
      have hw : w < 4294967296 := hv w (by simp)
      have hws : ∀ u ∈ ws, u < 4294967296 := fun u hu => hv u (by simp [hu])
      rw [show array_to_buffer (w :: ws)
          = encodeLE32 w ++ array_to_buffer ws from by
            simp [array_to_buffer],
        decodeLE32_encode w hw, ih hws]

/-- Witness for C9 at the concrete vector `[0, 1, 4294967295]`. -/
theorem C9_process_embedding_witness :
    (∀ w ∈ [0, 1, 4294967295], w < 4294967296)
    ∧ (process_embedding [0, 1, 4294967295] false
        = .floats [0, 1, 4294967295]
      ∧ process_embedding [0, 1, 4294967295] true
        = .buffer (array_to_buffer [0, 1, 4294967295])
      ∧ array_to_buffer [0, 1, 4294967295]
        = (([0, 1, 4294967295] : List Nat).map encodeLE32).flatten
      ∧ decodeLE32 (array_to_buffer [0, 1, 4294967295])
        = [0, 1, 4294967295]) :=
  ⟨by decide, C9_process_embedding [0, 1, 4294967295] (by decide)⟩

/-- Counterexample for C4 as stated: a response carrying a present but
empty vector is "malformed (empty vector)" per the claim, yet the probe
succeeds and returns dimension 0 instead of failing with
`ProviderResponseError`. -/
theorem C4_probe_empty_vector_counterexample :
    set_model_dims (fun _ => .ok ⟨[⟨[]⟩]⟩) "mistral-embed"
      = (.ok 0,
        [⟨Origin.probe, ⟨"mistral-embed", dimensionTestInput⟩⟩]) := rfl

/-- C4 (amended): the dimension probe issues exactly one embedding request
with the fixed sentinel text; on a response whose `data` holds at least one
item it returns that item's vector length (a present but empty vector
yields dimension 0 without error); it fails with a `ValueError` whose
message includes the underlying cause when `data` is empty (missing
vector) or when the remote call raises any other error; and a probe failure
fails construction outright without retry — construction never issues more
than one request. -/
theorem C4_probe (client : Client) (model : String) :
    (set_model_dims client model).2
      = [⟨Origin.probe, ⟨model, dimensionTestInput⟩⟩]
    ∧ (∀ resp d ds, client ⟨model, dimensionTestInput⟩ = .ok resp →
        resp.data = d :: ds →
        (set_model_dims client model).1 = .ok d.embedding.length)
    ∧ (∀ resp, client ⟨model, dimensionTestInput⟩ = .ok resp →
        resp.data = [] →
        (set_model_dims client model).1 = .error (.valueError
          ("Unexpected response from the MISTRAL API: "
            ++ errStr (.indexError "list index out of range"))))
    ∧ (∀ e, client ⟨model, dimensionTestInput⟩ = .error e →
        (set_model_dims client model).1
          = .error (.valueError (probeErrorMsg e))
        ∧ ∃ s, probeErrorMsg e = s ++ errStr e)
    ∧ (∀ apiConfig env e tr,
        mistralInit apiConfig env client model = (.error e, tr) →
        tr.length ≤ 1) := by
  refine ⟨rfl, ?_, ?_, ?_, ?_⟩
  · intro resp d ds hcl hdata
    simp [set_model_dims, hcl, hdata]
  · intro resp hcl hdata
    simp [set_model_dims, hcl, hdata, probeErrorMsg, isKeyOrIndexError]
  · intro e hcl
    refine ⟨by simp [set_model_dims, hcl], ?_⟩
    by_cases h : isKeyOrIndexError e = true
    · exact ⟨"Unexpected response from the MISTRAL API: ",
        by simp [probeErrorMsg, h]⟩
    · exact ⟨"Error setting embedding model dimensions: ",
        by simp [probeErrorMsg, h]⟩
  · intro apiConfig env e tr hinit
    unfold mistralInit at hinit
    cases hic : initClients apiConfig env with
    | error e2 =>
        rw [hic] at hinit
        have hsnd := congrArg Prod.snd hinit
        simp at hsnd
        subst hsnd
        simp
    | ok k =>
        rw [hic] at hinit
        rcases hsd : set_model_dims client model with ⟨out, tr2⟩
        have htr2 : tr2 = [⟨Origin.probe, ⟨model, dimensionTestInput⟩⟩] := by
          have h2 := congrArg Prod.snd hsd
          simp at h2
          rw [← h2]
          rfl
        cases out with
        | error e3 =>
            rw [hsd] at hinit
            have hsnd := congrArg Prod.snd hinit
            simp at hsnd
            subst hsnd
            rw [htr2]
            simp
        | ok d =>
            rw [hsd] at hinit
            simp at hinit

/-- Witness for C4 (amended): a client answering the sentinel with one
3-float vector gives dimension 3, and its trace is the single probe
request. -/
theorem C4_probe_witness :
    ((fun _ => .ok ⟨[⟨[7, 8, 9]⟩]⟩ : Client) ⟨"mistral-embed",
        dimensionTestInput⟩ = .ok ⟨[⟨[7, 8, 9]⟩]⟩)
    ∧ (set_model_dims (fun _ => .ok ⟨[⟨[7, 8, 9]⟩]⟩) "mistral-embed").1
      = .ok 3
    ∧ (set_model_dims (fun _ => .ok ⟨[⟨[7, 8, 9]⟩]⟩) "mistral-embed").2
      = [⟨Origin.probe, ⟨"mistral-embed", dimensionTestInput⟩⟩] :=
  ⟨rfl,
    (C4_probe (fun _ => .ok ⟨[⟨[7, 8, 9]⟩]⟩) "mistral-embed").2.1
      ⟨[⟨[7, 8, 9]⟩]⟩ ⟨[7, 8, 9]⟩ [] rfl rfl,
    (C4_probe (fun _ => .ok ⟨[⟨[7, 8, 9]⟩]⟩) "mistral-embed").1⟩

/-- Credential resolution as claim C8 words it: the explicit `api_config`
entry `api_key` overrides the environment-sourced credential, and
otherwise — including when `api_config` is present but has no `api_key`
entry — the credential comes from the `MISTRAL_API_KEY` environment
variable.  This definition follows the claim, for comparison against
`resolveApiKey`, which follows the code. -/
def specResolveApiKey (apiConfig : Option (List (String × PyVal)))
    (env : String → Option String) : Option PyVal :=
  match apiConfig with
  | some kvs =>
      match lookupKey kvs "api_key" with
      | some k => some k
      | none => (env "MISTRAL_API_KEY").map PyVal.str
  | none => (env "MISTRAL_API_KEY").map PyVal.str

/-- Counterexample for C8 as stated: with a non-empty `api_config` lacking
an `api_key` entry and the environment variable set, the claim's
resolution yields the environment credential `"k"`, but the code raises the
missing-key `ValueError` — `api_config` being truthy, the environment is
never consulted. -/
theorem C8_env_fallback_counterexample :
    initClients (some [("other", PyVal.str "x")])
        (fun n => if n == "MISTRAL_API_KEY" then some "k" else none)
      = .error (.valueError missingKeyMsg)
    ∧ specResolveApiKey (some [("other", PyVal.str "x")])
        (fun n => if n == "MISTRAL_API_KEY" then some "k" else none)
      = some (PyVal.str "k")
    ∧ pyTruthy (some (PyVal.str "k")) = true :=
  ⟨rfl, rfl, rfl⟩

/-- C8 (amended): the credential is resolved at construction as follows —
when `api_config` is present and non-empty, the credential is its
`api_key` entry and the environment is not consulted (so an explicit
`api_key` overrides the environment, and a non-empty `api_config` without
a truthy `api_key` fails construction even if `MISTRAL_API_KEY` is set);
when `api_config` is absent or empty, the credential is read from
`MISTRAL_API_KEY`.  When the resolved credential is missing or falsy,
construction fails with the missing-key `ValueError` before any embedding
request is issued; a resolved truthy credential is accepted. -/
theorem C8_credential_resolution (apiConfig : Option (List (String × PyVal)))
    (env : String → Option String) (client : Client) (model : String) :
    (∀ kvs, apiConfig = some kvs → kvs ≠ [] →
      resolveApiKey apiConfig env = lookupKey kvs "api_key")
    ∧ ((apiConfig = none ∨ apiConfig = some []) →
      resolveApiKey apiConfig env = (env "MISTRAL_API_KEY").map PyVal.str)
    ∧ (pyTruthy (resolveApiKey apiConfig env) = false →
      mistralInit apiConfig env client model
        = (.error (.valueError missingKeyMsg), []))
    ∧ (∀ k, resolveApiKey apiConfig env = some k →
      pyTruthy (some k) = true → initClients apiConfig env = .ok k) := by
  refine ⟨?_, ?_, ?_, ?_⟩
  · intro kvs h hne
    subst h
    have hem : kvs.isEmpty = false := by
      cases kvs with
      | nil => exact absurd rfl hne
      | cons a l => rfl
    simp [resolveApiKey, hem]
  · intro h
    rcases h with rfl | rfl
    · rfl
    · rfl
  · intro hfalse
    have hic : initClients apiConfig env
        = .error (.valueError missingKeyMsg) := by
      simp [initClients, hfalse]
    simp [mistralInit, hic]
  · intro k hres htru
    simp [initClients, hres, htru]

/-- Witness for C8 (amended): an explicit `api_key` is accepted; absent
credentials fail construction with the missing-key error and no
requests. -/
theorem C8_credential_resolution_witness :
    ([("api_key", PyVal.str "secret")] ≠ ([] : List (String × PyVal)))
    ∧ resolveApiKey (some [("api_key", PyVal.str "secret")])
        (fun _ => none)
      = lookupKey [("api_key", PyVal.str "secret")] "api_key"
    ∧ initClients (some [("api_key", PyVal.str "secret")]) (fun _ => none)
      = .ok (PyVal.str "secret")
    ∧ mistralInit none (fun _ => none) (fun _ => .ok ⟨[]⟩) "mistral-embed"
      = (.error (.valueError missingKeyMsg), []) :=
  ⟨List.cons_ne_nil _ _,
    (C8_credential_resolution (some [("api_key", PyVal.str "secret")])
      (fun _ => none) (fun _ => .ok ⟨[]⟩) "mistral-embed").1
      [("api_key", PyVal.str "secret")] rfl (List.cons_ne_nil _ _),
    (C8_credential_resolution (some [("api_key", PyVal.str "secret")])
      (fun _ => none) (fun _ => .ok ⟨[]⟩) "mistral-embed").2.2.2
      (PyVal.str "secret") rfl rfl,
    (C8_credential_resolution none (fun _ => none) (fun _ => .ok ⟨[]⟩)
      "mistral-embed").2.2.1 rfl⟩

theorem batchify_singleton (pre : Option (α → α)) (B : Nat) (hB : 1 ≤ B)
    (x : α) : batchify pre B [x] = [[applyPre pre x]] := by
  rw [batchify_cons pre B hB x []]
  cases B with
  | zero => exact absurd hB (by simp)
  | succ k => simp [batchify_nil]

/-- C6: for every valid single text input, every preprocess choice, every
output-format flag and every positive batch size, `embed(text)` and
`embed_many([text])[0]` produce the same normalized embedding — both equal
the normalization of the first vector the provider returns for the shared
single-item request (the provider, a fixed function of the request,
responds identically to identical requests). -/
theorem C6_embed_single_consistency (v : Vectorizer) (client : Client)
    (s : String) (pre : Option (PyVal → PyVal)) (batchSize : Nat)
    (asBuffer : Bool) (resp : EmbedResp) (d : EmbedItem)
    (ds : List EmbedItem) (hB : 1 ≤ batchSize)
    (hcl : client ⟨v.model, [applyPre pre (PyVal.str s)]⟩ = .ok resp)
    (hdata : resp.data = d :: ds) :
    (embed v (fun _ => client) (PyVal.str s) pre asBuffer).1
      = .ok (process_embedding d.embedding asBuffer)
    ∧ (embed_many v (fun _ => client) (PyVal.list [PyVal.str s]) pre
        batchSize asBuffer).1
      = .ok (process_embedding d.embedding asBuffer
          :: ds.map (fun r => process_embedding r.embedding asBuffer)) := by
  have h1 : embedOnce v client (PyVal.str s) pre asBuffer
      = (.ok (process_embedding d.embedding asBuffer),
        [⟨Origin.operation, ⟨v.model, [applyPre pre (PyVal.str s)]⟩⟩]) := by
    simp [embedOnce, hcl, hdata]
  have h2 : embed_manyOnce v client (PyVal.list [PyVal.str s]) pre
      batchSize asBuffer
      = (.ok (process_embedding d.embedding asBuffer
          :: ds.map (fun r => process_embedding r.embedding asBuffer)),
        [⟨Origin.operation, ⟨v.model, [applyPre pre (PyVal.str s)]⟩⟩]) := by
    have hx : embed_manyOnce v client (PyVal.list [PyVal.str s]) pre
        batchSize asBuffer
        = processBatches v client asBuffer
            (batchify pre batchSize [PyVal.str s]) := by
      simp [embed_manyOnce, pyIsStr]
    rw [hx, batchify_singleton pre batchSize hB]
    simp [processBatches, hcl, hdata, Except.map]
  constructor
  · rw [show embed v (fun _ => client) (PyVal.str s) pre asBuffer
        = retryGo mistralRetryOn
            (fun _ => embedOnce v client (PyVal.str s) pre asBuffer) 1 5
        from rfl,
      retryGo_ok mistralRetryOn _ 1 5 _ _ h1]
  · rw [show embed_many v (fun _ => client) (PyVal.list [PyVal.str s]) pre
          batchSize asBuffer
        = retryGo mistralRetryOn
            (fun _ => embed_manyOnce v client (PyVal.list [PyVal.str s])
              pre batchSize asBuffer) 1 5
        from rfl,
      retryGo_ok mistralRetryOn _ 1 5 _ _ h2]

/-- Witness for C6: a concrete provider answering the single-item request
with two vectors; `embed` returns the first and `embed_many([text])`
returns it at index 0. -/
theorem C6_embed_single_consistency_witness :
    1 ≤ 10
    ∧ ((fun _ => .ok ⟨[⟨[1, 2]⟩, ⟨[3]⟩]⟩ : Client)
        ⟨"mistral-embed", [applyPre none (PyVal.str "hello")]⟩
      = .ok ⟨[⟨[1, 2]⟩, ⟨[3]⟩]⟩)
    ∧ (embed ⟨"mistral-embed", 2⟩ (fun _ _ => .ok ⟨[⟨[1, 2]⟩, ⟨[3]⟩]⟩)
        (PyVal.str "hello") none false).1
      = .ok (process_embedding [1, 2] false)
    ∧ (embed_many ⟨"mistral-embed", 2⟩ (fun _ _ => .ok ⟨[⟨[1, 2]⟩, ⟨[3]⟩]⟩)
        (PyVal.list [PyVal.str "hello"]) none 10 false).1
      = .ok (process_embedding [1, 2] false
          :: ([⟨[3]⟩] : List EmbedItem).map
            (fun r => process_embedding r.embedding false)) := by
  have h := C6_embed_single_consistency ⟨"mistral-embed", 2⟩
    (fun _ => .ok ⟨[⟨[1, 2]⟩, ⟨[3]⟩]⟩) "hello" none 10 false
    ⟨[⟨[1, 2]⟩, ⟨[3]⟩]⟩ ⟨[1, 2]⟩ [⟨[3]⟩] (by decide) rfl rfl
  exact ⟨by decide, rfl, h.1, h.2⟩

/-- An invocation of one of the four public embedding operations on a
constructed vectorizer instance. -/
inductive ServiceCall where
  | embedCall (text : PyVal) (pre : Option (PyVal → PyVal)) (asBuffer : Bool)
  | embedManyCall (texts : PyVal) (pre : Option (PyVal → PyVal))
      (batchSize : Nat) (asBuffer : Bool)
  | aembedCall (text : PyVal) (pre : Option (PyVal → PyVal)) (asBuffer : Bool)
  | aembedManyCall (texts : PyVal) (pre : Option (PyVal → PyVal))
      (batchSize : Nat) (asBuffer : Bool)

/-- Runs one public operation on the instance.  The instance state comes
back unchanged, mirroring the source: none of the four method bodies
assigns to `self.model` or `self.dims` — only `__init__` writes them. -/
def runCall (v : Vectorizer) (client : Nat → Client) :
    ServiceCall → Vectorizer × List TracedReq
  | .embedCall t p ab => (v, (embed v client t p ab).2.1)
  | .embedManyCall ts p b ab => (v, (embed_many v client ts p b ab).2.1)
  | .aembedCall t p ab => (v, (aembed v client t p ab).2.1)
  | .aembedManyCall ts p b ab => (v, (aembed_many v client ts p b ab).2.1)

/-- Runs a sequence of public operations, threading the instance state and
concatenating the issued request traces. -/
def runCalls (v : Vectorizer) (client : Nat → Client) :
    List ServiceCall → Vectorizer × List TracedReq
  | [] => (v, [])
  | c :: cs =>
      match runCall v client c with
      | (v1, tr1) =>
          match runCalls v1 client cs with
          | (v2, tr2) => (v2, tr1 ++ tr2)

theorem probeCount_nil : probeCount [] = 0 := rfl

theorem probeCount_operation_cons (r : EmbedReq) (tr : List TracedReq) :
    probeCount (⟨Origin.operation, r⟩ :: tr) = probeCount tr := by
  simp [probeCount, List.countP_cons]

theorem embedOnce_probeCount (v : Vectorizer) (client : Client)
    (text : PyVal) (pre : Option (PyVal → PyVal)) (asBuffer : Bool) :
    probeCount (embedOnce v client text pre asBuffer).2 = 0 := by
  cases text with
  | str s =>
      cases hc : client ⟨v.model, [applyPre pre (PyVal.str s)]⟩ with
      | error e =>
          simp [embedOnce, hc, probeCount_operation_cons, probeCount_nil]
      | ok r =>
          cases hd : r.data.head? <;>
            simp [embedOnce, hc, hd, probeCount_operation_cons, probeCount_nil]
  | int n => rfl
  | list xs => rfl
  | noneV => rfl

theorem processBatches_probeCount (v : Vectorizer) (client : Client)
    (ab : Bool) :
    ∀ batches, probeCount (processBatches v client ab batches).2 = 0 := by
  intro batches
  induction batches with
  | nil => rfl
  | cons b rest ih =>
      cases hc : client ⟨v.model, b⟩ with
      | error e =>
          simp [processBatches, hc, probeCount_operation_cons, probeCount_nil]
      | ok resp =>
          rcases hrec : processBatches v client ab rest with ⟨out, tr2⟩
          rw [hrec] at ih
          simp only at ih
          simp [processBatches, hc, hrec, probeCount_operation_cons, ih]

theorem embed_manyOnce_probeCount (v : Vectorizer) (client : Client)
    (texts : PyVal) (pre : Option (PyVal → PyVal)) (batchSize : Nat)
    (asBuffer : Bool) :
    probeCount (embed_manyOnce v client texts pre batchSize asBuffer).2
      = 0 := by
  cases texts with
  | str s => rfl
  | int n => rfl
  | noneV => rfl
  | list xs =>
      cases xs with
      | nil => exact processBatches_probeCount v client asBuffer _
      | cons x rest =>
          by_cases hx : pyIsStr x = true
          · rw [show embed_manyOnce v client (PyVal.list (x :: rest)) pre
                batchSize asBuffer = processBatches v client asBuffer
                  (batchify pre batchSize (x :: rest)) by
              simp [embed_manyOnce, hx]]
            exact processBatches_probeCount v client asBuffer _
          · rw [show embed_manyOnce v client (PyVal.list (x :: rest)) pre
                batchSize asBuffer
                = (.error (.typeError embedManyTypeMsg), []) by
              simp [embed_manyOnce, hx]]
            rfl

theorem runCall_fst (v : Vectorizer) (client : Nat → Client)
    (c : ServiceCall) : (runCall v client c).1 = v := by
  cases c <;> rfl

theorem runCall_probeCount (v : Vectorizer) (client : Nat → Client)
    (c : ServiceCall) : probeCount (runCall v client c).2 = 0 := by
  cases c with
  | embedCall t p ab =>
      exact retryGo_trace_probeCount mistralRetryOn _
        (fun n => embedOnce_probeCount v (client n) t p ab) 5 1
  | embedManyCall ts p b ab =>
      exact retryGo_trace_probeCount mistralRetryOn _
        (fun n => embed_manyOnce_probeCount v (client n) ts p b ab) 5 1
  | aembedCall t p ab =>
      exact retryGo_trace_probeCount mistralRetryOn _
        (fun n => embedOnce_probeCount v (client n) t p ab) 5 1
  | aembedManyCall ts p b ab =>
      exact retryGo_trace_probeCount mistralRetryOn _
        (fun n => embed_manyOnce_probeCount v (client n) ts p b ab) 5 1

theorem runCalls_spec (client : Nat → Client) :
    ∀ calls (v : Vectorizer), (runCalls v client calls).1 = v
      ∧ probeCount (runCalls v client calls).2 = 0 := by
  intro calls
  induction calls with
  | nil => intro v; exact ⟨rfl, rfl⟩
  | cons c cs ih =>
      intro v
      rcases h1 : runCall v client c with ⟨v1, tr1⟩
      rcases h2 : runCalls v1 client cs with ⟨v2, tr2⟩
      have hv1 : v1 = v := by
        have := runCall_fst v client c
        rw [h1] at this
        exact this
      have htr1 : probeCount tr1 = 0 := by
        have := runCall_probeCount v client c
        rw [h1] at this
        exact this
      rcases ih v1 with ⟨ihv, ihtr⟩
      rw [h2] at ihv ihtr
      simp only at ihv ihtr
      constructor
      · rw [show runCalls v client (c :: cs) = (v2, tr1 ++ tr2) by
          simp [runCalls, h1, h2]]
        rw [show v2 = v1 from ihv, hv1]
      · rw [show runCalls v client (c :: cs) = (v2, tr1 ++ tr2) by
          simp [runCalls, h1, h2]]
        simp only [probeCount, List.countP_append] at htr1 ihtr ⊢
        omega

/-- C5: construction runs the dimension probe exactly once — the
construction trace holds exactly one probe-issued request, and construction
succeeds only after the probe has answered (the probed value is stored in
`dims` before the instance exists) — and afterwards no sequence of public
embedding operations ever issues a probe request or changes the instance,
so the discovered `dims` stays fixed for the object's lifetime. -/
theorem C5_probe_once (apiConfig : Option (List (String × PyVal)))
    (env : String → Option String) (client : Client) (model : String)
    (v : Vectorizer) (tr : List TracedReq)
    (hinit : mistralInit apiConfig env client model = (.ok v, tr)) :
    probeCount tr = 1
    ∧ v.model = model
    ∧ (∀ (opClient : Nat → Client) (calls : List ServiceCall),
        (runCalls v opClient calls).1 = v
        ∧ probeCount (runCalls v opClient calls).2 = 0) := by
  unfold mistralInit at hinit
  cases hic : initClients apiConfig env with
  | error e2 =>
      rw [hic] at hinit
      exact absurd hinit (by simp)
  | ok k =>
      rw [hic] at hinit
      rcases hsd : set_model_dims client model with ⟨out, tr2⟩
      have htr2 : tr2 = [⟨Origin.probe, ⟨model, dimensionTestInput⟩⟩] := by
        have h2 := congrArg Prod.snd hsd
        simp at h2
        rw [← h2]
        rfl
      cases out with
      | error e3 =>
          rw [hsd] at hinit
          exact absurd hinit (by simp)
      | ok dd =>
          rw [hsd] at hinit
          have hv := congrArg Prod.fst hinit
          simp at hv
          have htr := congrArg Prod.snd hinit
          simp at htr
          refine ⟨?_, ?_, ?_⟩
          · rw [← htr, htr2]
            rfl
          · rw [← hv]
          · intro opClient calls
            exact runCalls_spec opClient calls v

/-- Witness for C5: a concrete construction with a 2-dimensional probe
answer; its trace holds exactly one probe request and no operation sequence
re-probes or changes the instance. -/
theorem C5_probe_once_witness :
    (mistralInit (some [("api_key", PyVal.str "k")]) (fun _ => none)
        (fun _ => .ok ⟨[⟨[1, 2]⟩]⟩) "mistral-embed"
      = (.ok ⟨"mistral-embed", 2⟩,
          [⟨Origin.probe, ⟨"mistral-embed", dimensionTestInput⟩⟩]))
    ∧ probeCount [⟨Origin.probe, ⟨"mistral-embed", dimensionTestInput⟩⟩] = 1
    ∧ (∀ (opClient : Nat → Client) (calls : List ServiceCall),
        (runCalls ⟨"mistral-embed", 2⟩ opClient calls).1
          = ⟨"mistral-embed", 2⟩
        ∧ probeCount (runCalls ⟨"mistral-embed", 2⟩ opClient calls).2
          = 0) := by
  have h := C5_probe_once (some [("api_key", PyVal.str "k")]) (fun _ => none)
    (fun _ => .ok ⟨[⟨[1, 2]⟩]⟩) "mistral-embed" ⟨"mistral-embed", 2⟩
    [⟨Origin.probe, ⟨"mistral-embed", dimensionTestInput⟩⟩] rfl
  exact ⟨rfl, h.1, h.2.2⟩
